import Mathlib

/-!
# Verification of the trazo whiteboard interaction core

A shallow embedding of the whiteboard's state-management engine:
the canvas object model (`src/types.d.ts`), the history engine
(`src/App.tsx`), the tool input machine of the `Canvas` component,
and the editable-text reducer (`src/hooks/useEditableText.ts`).
JavaScript numbers are embedded as rationals (`ℚ`); object ids and
text are strings.
-/

namespace Trazo

/-- The `globalCompositeOperation` field of a line:
`"source-over"` (normal) or `"destination-out"` (eraser). -/
inductive CompositeMode where
  | sourceOver
  | destinationOut
deriving DecidableEq, Repr

/-- `LineObject` from `src/types.d.ts`: a freehand stroke with a flat
list of coordinates. -/
structure LineObject where
  id : String
  x : ℚ
  y : ℚ
  points : List ℚ
  color : String
  strokeWidth : ℚ
  opacity : ℚ
  globalCompositeOperation : CompositeMode
deriving DecidableEq, Repr

/-- `RectObject` from `src/types.d.ts`. -/
structure RectObject where
  id : String
  x : ℚ
  y : ℚ
  width : ℚ
  height : ℚ
  rotation : ℚ
  opacity : ℚ
  fill : String
  stroke : String
  strokeWidth : ℚ
deriving DecidableEq, Repr

/-- The interaction mode of the editable-text sub-machine
(`src/hooks/useEditableText.ts`). -/
inductive InteractionMode where
  | IDLE
  | DRAGGING
  | RESIZING
  | EDITING
deriving DecidableEq, Repr

/-- `TextObject` from `src/types.d.ts`, extended with the transient
`interactionMode` tag that the `Canvas` component attaches when it
creates one (`part_000`, text branch of `handleMouseDown`). -/
structure TextObject where
  id : String
  x : ℚ
  y : ℚ
  width : ℚ
  height : ℚ
  rotation : ℚ
  opacity : ℚ
  text : String
  color : String
  fontSize : ℚ
  fontFamily : String
  fontWeight : String
  interactionMode : InteractionMode
deriving DecidableEq, Repr

/-- `CanvasObject`: the discriminated union of drawable objects. -/
inductive CanvasObject where
  | line (l : LineObject)
  | rect (r : RectObject)
  | text (t : TextObject)
deriving DecidableEq, Repr

/-- The `id` of a canvas object (the shared `id` field of the union). -/
def CanvasObject.id : CanvasObject → String
  | .line l => l.id
  | .rect r => r.id
  | .text t => t.id

/-! ## History engine (`src/App.tsx`) -/

/-- The history state of `WhiteboardApp`: the `history` array of
snapshots and the `currentStep` cursor. -/
structure AppState where
  history : List (List CanvasObject)
  currentStep : Nat
deriving DecidableEq, Repr

/-- The initial state: `useState([[]])` and `useState(0)`. -/
def initialApp : AppState := ⟨[[]], 0⟩

/-- `objects = history[currentStep] || []` in `WhiteboardApp`. -/
def currentObjects (s : AppState) : List CanvasObject :=
  s.history.getD s.currentStep []

/-- `addObject` from `src/App.tsx`: append the new object to the
current snapshot, truncate the redo branch, append, advance cursor. -/
def addObject (s : AppState) (newObject : CanvasObject) : AppState :=
  let currentObjs := currentObjects s
  let newObjects := currentObjs ++ [newObject]
  let newHistory := s.history.take (s.currentStep + 1)
  ⟨newHistory ++ [newObjects], newHistory.length⟩

/-- `updateObject` from `src/App.tsx`: replace the object with the
matching id in the current snapshot and commit; if no object has the
id (`findIndex` returns `-1`), return without changing anything. -/
def updateObject (s : AppState) (updatedObject : CanvasObject) : AppState :=
  let currentObjs := currentObjects s
  match currentObjs.findIdx? (fun o => o.id = updatedObject.id) with
  | none => s
  | some objectIndex =>
    let newObjects := currentObjs.set objectIndex updatedObject
    let newHistory := s.history.take (s.currentStep + 1)
    ⟨newHistory ++ [newObjects], newHistory.length⟩

/-- `handleUndo` from `src/App.tsx`. -/
def handleUndo (s : AppState) : AppState :=
  if s.currentStep > 0 then ⟨s.history, s.currentStep - 1⟩ else s

/-- `handleRedo` from `src/App.tsx`. -/
def handleRedo (s : AppState) : AppState :=
  if s.currentStep < s.history.length - 1 then ⟨s.history, s.currentStep + 1⟩ else s

/-- `onClear` from `src/App.tsx`. -/
def onClear (_s : AppState) : AppState := ⟨[[]], 0⟩

/-- `canUndo = currentStep > 0`. -/
def canUndo (s : AppState) : Bool := decide (0 < s.currentStep)

/-- `canRedo = currentStep < history.length - 1`. -/
def canRedo (s : AppState) : Bool := decide (s.currentStep < s.history.length - 1)

/-- The operations the host can perform on the history state. -/
inductive Op where
  | add (o : CanvasObject)
  | upd (o : CanvasObject)
  | undo
  | redo
  | clear
deriving DecidableEq, Repr

/-- Apply one operation to the history state. -/
def applyOp (s : AppState) : Op → AppState
  | .add o => addObject s o
  | .upd o => updateObject s o
  | .undo => handleUndo s
  | .redo => handleRedo s
  | .clear => onClear s

/-- Run a sequence of operations from a state. -/
def runOps (s : AppState) (l : List Op) : AppState := l.foldl applyOp s

/-- A history state is reachable when some operation sequence produces
it from the initial state. -/
def Reachable (s : AppState) : Prop := ∃ l : List Op, runOps initialApp l = s

/-- The structural invariant of the history state: the snapshot list is
non-empty and the cursor is a valid index into it. -/
def appInvariant (s : AppState) : Prop :=
  0 < s.history.length ∧ s.currentStep < s.history.length

lemma addObject_invariant (s : AppState) (o : CanvasObject) :
    appInvariant (addObject s o) := by
  constructor <;> simp [addObject]

lemma updateObject_invariant (s : AppState) (o : CanvasObject)
    (h : appInvariant s) : appInvariant (updateObject s o) := by
  unfold updateObject
  dsimp only
  split
  · exact h
  · constructor <;> simp

lemma applyOp_invariant (s : AppState) (op : Op) (h : appInvariant s) :
    appInvariant (applyOp s op) := by
  obtain ⟨h1, h2⟩ := h
  cases op with
  | add o => exact addObject_invariant s o
  | upd o => exact updateObject_invariant s o ⟨h1, h2⟩
  | undo =>
    simp only [applyOp, handleUndo]
    split
    · exact ⟨h1, show s.currentStep - 1 < s.history.length by omega⟩
    · exact ⟨h1, h2⟩
  | redo =>
    simp only [applyOp, handleRedo]
    split
    · next hlt => exact ⟨h1, show s.currentStep + 1 < s.history.length by omega⟩
    · exact ⟨h1, h2⟩
  | clear => exact ⟨by simp [applyOp, onClear], by simp [applyOp, onClear]⟩

lemma runOps_invariant (l : List Op) (s : AppState) (h : appInvariant s) :
    appInvariant (runOps s l) := by
  induction l generalizing s with
  | nil => exact h
  | cons op rest ih => exact ih (applyOp s op) (applyOp_invariant s op h)

lemma reachable_invariant (s : AppState) (h : Reachable s) : appInvariant s := by
  obtain ⟨l, hl⟩ := h
  have : appInvariant initialApp := ⟨by simp [initialApp], by simp [initialApp]⟩
  simpa [hl] using runOps_invariant l initialApp this

lemma runOps_append (s : AppState) (l1 l2 : List Op) :
    runOps s (l1 ++ l2) = runOps (runOps s l1) l2 := by
  simp [runOps, List.foldl_append]

/-! ## Editable-text sub-machine (`src/hooks/useEditableText.ts`) -/

/-- `MIN_FONT_SIZE` from `useEditableText.ts`. -/
def MIN_FONT_SIZE : ℚ := 8

/-- `MAX_FONT_SIZE` from `useEditableText.ts`. -/
def MAX_FONT_SIZE : ℚ := 150

/-- The corner handle that initiated a resize gesture
(`ResizeDirection` in `useEditableText.ts`). -/
inductive ResizeDirection where
  | topLeft
  | topRight
  | bottomLeft
  | bottomRight
deriving DecidableEq, Repr

/-- `"top-left".includes("left")` etc.: which direction strings contain
the substring `"left"`. -/
def directionIncludesLeft : ResizeDirection → Bool
  | .topLeft => true
  | .bottomLeft => true
  | _ => false

/-- Which direction strings contain the substring `"top"`. -/
def directionIncludesTop : ResizeDirection → Bool
  | .topLeft => true
  | .topRight => true
  | _ => false

/-- `EditableState` from `useEditableText.ts`. -/
structure EditableState where
  x : ℚ
  y : ℚ
  width : ℚ
  height : ℚ
  text : String
  fontSize : ℚ
  interactionMode : InteractionMode
deriving DecidableEq, Repr

/-- The reducer's `Action` discriminated union. -/
inductive Action where
  | START_INTERACTION (mode : InteractionMode)
  | END_INTERACTION
  | UPDATE_POSITION (x y : ℚ)
  | UPDATE_FONT_SIZE (fontSize : ℚ)
  | UPDATE_CONTAINER_SIZE (width height : ℚ)
  | START_EDIT
  | UPDATE_TEXT (text : String)
  | END_EDIT
  | KEYBOARD_MOVE (deltaX deltaY : ℚ)
deriving DecidableEq, Repr

/-- The reducer of `useEditableText.ts`. -/
def reducer (state : EditableState) (action : Action) : EditableState :=
  match action with
  | .START_INTERACTION mode => { state with interactionMode := mode }
  | .END_INTERACTION => { state with interactionMode := .IDLE }
  | .UPDATE_POSITION x y => { state with x := x, y := y }
  | .UPDATE_FONT_SIZE fontSize => { state with fontSize := fontSize }
  | .UPDATE_CONTAINER_SIZE width height =>
      { state with width := width, height := height }
  | .START_EDIT => { state with interactionMode := .EDITING }
  | .UPDATE_TEXT text => { state with text := text }
  | .END_EDIT => { state with interactionMode := .IDLE }
  | .KEYBOARD_MOVE deltaX deltaY =>
      { state with x := state.x + deltaX, y := state.y + deltaY }

/-- `initialState` from `useEditableText.ts`. -/
def initialState : EditableState :=
  { x := 100, y := 100, width := 200, height := 100, fontSize := 24,
    text := "", interactionMode := .IDLE }

/-- `InteractionData` held in `interactionRef`; `direction` is `""`
(here `none`) outside a resize gesture. -/
structure InteractionData where
  startX : ℚ
  startY : ℚ
  startFontSize : ℚ
  startBoxX : ℚ
  startBoxY : ℚ
  direction : Option ResizeDirection
deriving DecidableEq, Repr

/-- The per-corner `delta` of the RESIZING branch of the window
mouse-move handler in `useEditableText.ts`. -/
def resizeDelta (direction : ResizeDirection) (deltaX deltaY : ℚ) : ℚ :=
  match direction with
  | .topLeft => -deltaX + -deltaY
  | .topRight => deltaX + -deltaY
  | .bottomLeft => -deltaX + deltaY
  | .bottomRight => deltaX + deltaY

/-- The window `handleMouseMove` installed while DRAGGING or RESIZING
in `useEditableText.ts`, applied through the reducer. -/
def windowMouseMove (state : EditableState) (inter : InteractionData)
    (clientX clientY : ℚ) : EditableState :=
  let deltaX := clientX - inter.startX
  let deltaY := clientY - inter.startY
  if state.interactionMode = .DRAGGING then
    reducer state (.UPDATE_POSITION (inter.startBoxX + deltaX) (inter.startBoxY + deltaY))
  else if state.interactionMode = .RESIZING then
    let delta : ℚ :=
      match inter.direction with
      | some d => resizeDelta d deltaX deltaY
      | none => 0
    let newFontSize :=
      max MIN_FONT_SIZE (min MAX_FONT_SIZE (inter.startFontSize + delta * (0.2 : ℚ)))
    reducer state (.UPDATE_FONT_SIZE newFontSize)
  else state

/-- The anchor-correction layout effect of `useEditableText.ts`,
RESIZING branch: given the previous measured size, shift the position
away from the handle's edge by the size delta. -/
def anchorCorrect (direction : ResizeDirection) (prevWidth prevHeight : ℚ)
    (state : EditableState) : EditableState :=
  let dw := state.width - prevWidth
  let dh := state.height - prevHeight
  if dw = 0 ∧ dh = 0 then state
  else
    let newX := if directionIncludesLeft direction then state.x - dw else state.x
    let newY := if directionIncludesTop direction then state.y - dh else state.y
    if newX ≠ state.x ∨ newY ≠ state.y then
      reducer state (.UPDATE_POSITION newX newY)
    else state

/-- The keyboard keys `handleKeyDown` distinguishes. -/
inductive Key where
  | Enter
  | ArrowUp
  | ArrowDown
  | ArrowLeft
  | ArrowRight
  | Other
deriving DecidableEq, Repr

/-- `handleKeyDown` from `useEditableText.ts`, applied through the
reducer. -/
def handleKeyDown (state : EditableState) (key : Key)
    (shiftKey ctrlKey : Bool) : EditableState :=
  if state.interactionMode = .EDITING then state
  else
    let step : ℚ := if shiftKey then 10 else 1
    let fontStep : ℚ := if shiftKey then 2 else 1
    match key with
    | .Enter => reducer state .START_EDIT
    | .ArrowUp =>
        if ctrlKey then
          reducer state (.UPDATE_FONT_SIZE (min MAX_FONT_SIZE (state.fontSize + fontStep)))
        else
          reducer state (.KEYBOARD_MOVE 0 (-step))
    | .ArrowDown =>
        if ctrlKey then
          reducer state (.UPDATE_FONT_SIZE (max MIN_FONT_SIZE (state.fontSize - fontStep)))
        else
          reducer state (.KEYBOARD_MOVE 0 step)
    | .ArrowLeft => reducer state (.KEYBOARD_MOVE (-step) 0)
    | .ArrowRight => reducer state (.KEYBOARD_MOVE step 0)
    | .Other => state

/-- The notifications the hook's exit effect sends to the host when the
interaction mode changes: on every transition from a non-IDLE mode to
IDLE it calls `onUpdate(state)`, and additionally `onDone(state)` when
the mode being left was EDITING. -/
inductive HookEvent where
  | update (st : EditableState)
  | done (st : EditableState)
deriving DecidableEq, Repr

/-- The exit effect of `useEditableText.ts`: the list of host
notifications fired for a mode transition, in order. -/
def exitNotifications (prevMode currentMode : InteractionMode)
    (st : EditableState) : List HookEvent :=
  if prevMode ≠ .IDLE ∧ currentMode = .IDLE then
    HookEvent.update st :: (if prevMode = .EDITING then [HookEvent.done st] else [])
  else []

/-! ## Tool input state machine (`Canvas` component, `part_000`) -/

/-- The active tool (`ToolType` in `src/types.d.ts`). -/
inductive Tool where
  | cursor
  | pencil
  | eraser
  | sticky
  | text
  | rectangle
  | circle
deriving DecidableEq, Repr

/-- `PencilOptions` from `src/types.d.ts`. -/
structure PencilOptions where
  color : String
  strokeWidth : ℚ
  opacity : ℚ
deriving DecidableEq, Repr

/-- `EraserOptions` from `src/types.d.ts`. -/
structure EraserOptions where
  size : ℚ
deriving DecidableEq, Repr

/-- `TextOptions` from `src/types.d.ts`. -/
structure TextOptions where
  fontSize : ℚ
  color : String
  fontWeight : String
deriving DecidableEq, Repr

/-- `ToolOptions` from `src/types.d.ts`. -/
structure ToolOptions where
  pencil : PencilOptions
  eraser : EraserOptions
  text : TextOptions
deriving DecidableEq, Repr

/-- A canvas-space pointer position; events may fail to resolve one
(`getPointerPosition()` returning null), modelled as `Option Point`. -/
structure Point where
  x : ℚ
  y : ℚ
deriving DecidableEq, Repr

/-- The transient state of the `Canvas` component: the `isDrawing`
ref, the preview line, the selected id and the text object being
edited. -/
structure CanvasState where
  isDrawing : Bool
  previewLine : Option LineObject
  selectedObjectId : Option String
  editingText : Option TextObject
deriving DecidableEq, Repr

/-- The initial `Canvas` state. -/
def initialCanvas : CanvasState := ⟨false, none, none, none⟩

/-- A mutation request the `Canvas` sends up to the host
(`onAddObject` / `onUpdateObject`). -/
inductive AppCall where
  | add (o : CanvasObject)
  | update (o : CanvasObject)
deriving DecidableEq, Repr

/-- The host routes each call into the history engine. -/
def appApply (s : AppState) : AppCall → AppState
  | .add o => addObject s o
  | .update o => updateObject s o

/-- Apply a list of calls in order. -/
def appApplyAll (s : AppState) (calls : List AppCall) : AppState :=
  calls.foldl appApply s

/-- `handleMouseDown` of the `Canvas` component. `freshId` stands for
the id built from `Date.now()`; `clickedOnEmpty` is whether the event
target is the stage itself. The `isDrawing` ref is set before the
position check, as in the source. -/
def handleMouseDown (activeTool : Tool) (toolOptions : ToolOptions)
    (freshId : String) (pos : Option Point) (clickedOnEmpty : Bool)
    (cs : CanvasState) : CanvasState :=
  if cs.editingText.isSome then cs
  else if activeTool = .pencil ∨ activeTool = .eraser then
    match pos with
    | none => { cs with isDrawing := true }
    | some p =>
      { cs with
        isDrawing := true,
        previewLine := some
          { id := freshId
            x := 0, y := 0
            points := [p.x, p.y]
            color := toolOptions.pencil.color
            strokeWidth :=
              if activeTool = .eraser then toolOptions.eraser.size
              else toolOptions.pencil.strokeWidth
            opacity := toolOptions.pencil.opacity / 100
            globalCompositeOperation :=
              if activeTool = .eraser then .destinationOut else .sourceOver } }
  else if activeTool = .text then
    match pos with
    | none => cs
    | some p =>
      { cs with
        editingText := some
          { id := freshId
            x := p.x, y := p.y
            text := ""
            color := toolOptions.text.color
            fontSize := toolOptions.text.fontSize
            fontWeight := toolOptions.text.fontWeight
            fontFamily := "sans-serif"
            width := 200, height := 50
            rotation := 0, opacity := 1
            interactionMode := .EDITING }
        selectedObjectId := none }
  else if clickedOnEmpty then { cs with selectedObjectId := none }
  else cs

/-- `handleMouseMove` of the `Canvas` component: append the point to
the preview line; never touches history. -/
def handleMouseMove (pos : Option Point) (cs : CanvasState) : CanvasState :=
  if cs.isDrawing = false ∨ cs.previewLine = none then cs
  else
    match pos, cs.previewLine with
    | some p, some l =>
      { cs with previewLine := some { l with points := l.points ++ [p.x, p.y] } }
    | _, _ => cs

/-- `handleMouseUp` of the `Canvas` component: commit the preview line
when a drawing gesture is active, then reset the gesture state. -/
def handleMouseUp (cs : CanvasState) : CanvasState × List AppCall :=
  let calls :=
    match cs.isDrawing, cs.previewLine with
    | true, some l => [AppCall.add (.line l)]
    | _, _ => []
  ({ cs with isDrawing := false, previewLine := none }, calls)

/-- `handleObjectClick` of the `Canvas` component. -/
def handleObjectClick (activeTool : Tool) (id : String)
    (cs : CanvasState) : CanvasState :=
  if activeTool = .cursor then { cs with selectedObjectId := some id } else cs

/-- `handleObjectDblClick` of the `Canvas` component: open a text
interaction on an existing text object and clear the selection. -/
def handleObjectDblClick (activeTool : Tool) (objects : List CanvasObject)
    (id : String) (cs : CanvasState) : CanvasState :=
  if activeTool ≠ .cursor then cs
  else
    match objects.find? (fun o => o.id = id) with
    | some (.text t) => { cs with editingText := some t, selectedObjectId := none }
    | _ => cs

/-- The transform-end node attributes reported by the renderer. -/
structure TransformNode where
  id : String
  x : ℚ
  y : ℚ
  rotation : ℚ
  scaleX : ℚ
  scaleY : ℚ
deriving DecidableEq, Repr

/-- `handleTransformEnd` of the `Canvas` component: look up the target
by id; if absent, do nothing; otherwise emit an update with the scale
folded into width/height (clamped at 5) for objects that have them. -/
def handleTransformEnd (objects : List CanvasObject)
    (node : TransformNode) : List AppCall :=
  match objects.find? (fun o => o.id = node.id) with
  | none => []
  | some (.line l) =>
      [AppCall.update (.line { l with x := node.x, y := node.y })]
  | some (.rect r) =>
      [AppCall.update (.rect
        { r with
          x := node.x, y := node.y, rotation := node.rotation
          width := max 5 (r.width * node.scaleX)
          height := max 5 (r.height * node.scaleY) })]
  | some (.text t) =>
      [AppCall.update (.text
        { t with
          x := node.x, y := node.y, rotation := node.rotation
          width := max 5 (t.width * node.scaleX)
          height := max 5 (t.height * node.scaleY) })]

/-- `{...editingText, ...state}`: overwrite the text object's fields
with the hook state's fields (every `EditableState` field exists on
`TextObject`). -/
def applyHookState (et : TextObject) (st : EditableState) : TextObject :=
  { et with
    x := st.x, y := st.y, width := st.width, height := st.height,
    text := st.text, fontSize := st.fontSize,
    interactionMode := st.interactionMode }

/-- The hook's initial state for a text object being edited:
`{...initialState, ...customInitialState}` where the custom state (the
text object) supplies every field of `EditableState`. -/
def hookInitFromText (t : TextObject) : EditableState :=
  { x := t.x, y := t.y, width := t.width, height := t.height,
    text := t.text, fontSize := t.fontSize,
    interactionMode := t.interactionMode }

/-- `handleTextUpdate` of the `Canvas` component: remember the updated
text object and forward it to the host's `onUpdateObject`. -/
def handleTextUpdate (cs : CanvasState) (updatedText : TextObject) :
    CanvasState × List AppCall :=
  ({ cs with editingText := some updatedText }, [AppCall.update (.text updatedText)])

/-- JavaScript's `String.prototype.trim()`: drop leading and trailing
whitespace characters. -/
def jsTrim (s : String) : String :=
  ⟨((s.data.dropWhile Char.isWhitespace).reverse.dropWhile
      Char.isWhitespace).reverse⟩

/-- `handleTextEditEnd` of the `Canvas` component: discard when the
trimmed text is empty, otherwise update an existing object or add a
new one; the interaction is removed in every case. -/
def handleTextEditEnd (objects : List CanvasObject) (cs : CanvasState)
    (finalTextObject : TextObject) : CanvasState × List AppCall :=
  if jsTrim finalTextObject.text = "" then
    ({ cs with editingText := none }, [])
  else if objects.any (fun o => o.id = finalTextObject.id) then
    ({ cs with editingText := none }, [AppCall.update (.text finalTextObject)])
  else
    ({ cs with editingText := none }, [AppCall.add (.text finalTextObject)])

/-- Dispatch one hook notification through the `Canvas` wiring
(`onUpdate` → `handleTextUpdate`, `onDone` → `handleTextEditEnd`),
with both callbacks merging the hook state over the `editingText`
captured at render time. -/
def dispatchHookEvent (objects : List CanvasObject) (editingText : TextObject)
    (cs : CanvasState) : HookEvent → CanvasState × List AppCall
  | .update st => handleTextUpdate cs (applyHookState editingText st)
  | .done st => handleTextEditEnd objects cs (applyHookState editingText st)

/-- All host calls emitted when the hook's interaction mode changes:
the exit notifications, each dispatched through the `Canvas` handlers
against the objects and `editingText` of the triggering render. -/
def textExitCalls (prevMode : InteractionMode) (st : EditableState)
    (cs : CanvasState) (app : AppState) : List AppCall :=
  match cs.editingText with
  | none => []
  | some et =>
    (exitNotifications prevMode st.interactionMode st).foldl
      (fun acc ev => acc ++ (dispatchHookEvent (currentObjects app) et cs ev).2) []

/-- Pointer events entering the `Canvas` stage handlers. -/
inductive CanvasEvent where
  | mouseDown (freshId : String) (pos : Option Point) (clickedOnEmpty : Bool)
  | mouseMove (pos : Option Point)
  | mouseUp
deriving DecidableEq, Repr

/-- One stage event through the `Canvas` handlers: the next transient
state and the calls emitted to the host. Mouse-down and mouse-move
emit none. -/
def canvasStep (activeTool : Tool) (toolOptions : ToolOptions)
    (cs : CanvasState) : CanvasEvent → CanvasState × List AppCall
  | .mouseDown freshId pos clickedOnEmpty =>
      (handleMouseDown activeTool toolOptions freshId pos clickedOnEmpty cs, [])
  | .mouseMove pos => (handleMouseMove pos cs, [])
  | .mouseUp => handleMouseUp cs

/-- Run a sequence of stage events, routing every emitted call into the
history engine. -/
def runCanvas (activeTool : Tool) (toolOptions : ToolOptions)
    (start : CanvasState × AppState) (events : List CanvasEvent) :
    CanvasState × AppState :=
  events.foldl
    (fun acc ev =>
      let step := canvasStep activeTool toolOptions acc.1 ev
      (step.1, appApplyAll acc.2 step.2))
    start

/-! ## Concrete fixtures -/

/-- The default tool options of `src/App.tsx`
(`DEFAULT_TOOL_OPTIONS`). -/
def toolOptionsEx : ToolOptions :=
  { pencil := { color := "#000000", strokeWidth := 5, opacity := 100 }
    eraser := { size := 20 }
    text := { fontSize := 16, color := "#000000", fontWeight := "normal" } }

/-- The line object a pencil gesture with the default options builds,
parameterized by its recorded points. -/
def pencilLine (points : List ℚ) : LineObject :=
  { id := "line-1", x := 0, y := 0, points := points,
    color := toolOptionsEx.pencil.color,
    strokeWidth := toolOptionsEx.pencil.strokeWidth,
    opacity := toolOptionsEx.pencil.opacity / 100,
    globalCompositeOperation := .sourceOver }

/-- A sample committed object used in concrete history runs. -/
def objA : CanvasObject :=
  .line { id := "a", x := 0, y := 0, points := [1, 2], color := "#000000",
          strokeWidth := 5, opacity := 1, globalCompositeOperation := .sourceOver }

/-- The text object a pointer-down placement at (40,50) with the
default options creates (text branch of `handleMouseDown`). -/
def placedText : TextObject :=
  { id := "t1", x := 40, y := 50, text := "", color := "#000000",
    fontSize := 16, fontWeight := "normal", fontFamily := "sans-serif",
    width := 200, height := 50, rotation := 0, opacity := 1,
    interactionMode := .EDITING }

/-- The `Canvas` state right after the placement. -/
def csPlaced : CanvasState := { initialCanvas with editingText := some placedText }

/-- Hook state after typing "Hi" and blurring (`UPDATE_TEXT` then
`END_EDIT`). -/
def stHi : EditableState :=
  reducer (reducer (hookInitFromText placedText) (.UPDATE_TEXT "Hi")) .END_EDIT

/-- Hook state after blurring with the text still empty. -/
def stEmptyDone : EditableState := reducer (hookInitFromText placedText) .END_EDIT

/-- The text object the "Hi" scenario commits. -/
def hiCommitted : TextObject := applyHookState placedText stHi

/-- The text object the empty-blur scenario forwards to
`onUpdateObject`. -/
def emptyMerged : TextObject := applyHookState placedText stEmptyDone

/-- History after the "Hi" text commit. -/
def appAfterHi : AppState := ⟨[[], [.text hiCommitted]], 1⟩

/-- The `Canvas` state after double-clicking the committed "Hi" object
with the cursor tool. -/
def csEditAgain : CanvasState := { initialCanvas with editingText := some hiCommitted }

/-- Hook state after re-opening the "Hi" object, entering edit mode,
replacing the text by a single space, and blurring. -/
def stWhitespace : EditableState :=
  reducer (reducer (reducer (hookInitFromText hiCommitted) .START_EDIT)
    (.UPDATE_TEXT " ")) .END_EDIT

/-- The whitespace-only text object the re-edit scenario forwards. -/
def wsCommitted : TextObject := applyHookState hiCommitted stWhitespace

/-- Modelled from the spec claims: clamping a value to the closed
interval from `lo` to `hi`. Used to compare the code's
`max lo (min hi v)` against the claims' `clamp(v, lo, hi)`. -/
def specClamp (v lo hi : ℚ) : ℚ := max lo (min hi v)

/-! ## Shared lemmas -/

lemma addObject_canUndo (s : AppState) (h : 0 < s.history.length)
    (o : CanvasObject) : canUndo (addObject s o) = true := by
  simp [canUndo, addObject]
  omega

lemma addObject_canRedo (s : AppState) (o : CanvasObject) :
    canRedo (addObject s o) = false := by
  simp [canRedo, addObject]

/-! ## Claim theorems -/

/-- C2: from every reachable history state, one more commit (an
`addObject`, or an `updateObject` that finds its target) makes
`canUndo` true and `canRedo` false; and in a commit-only sequence
`canRedo` is false (and `canUndo` true) after every commit. -/
theorem commit_sets_canUndo_not_canRedo :
    ∀ (s : AppState), Reachable s → ∀ (o : CanvasObject),
      (canUndo (addObject s o) = true ∧ canRedo (addObject s o) = false)
      ∧ (((currentObjects s).findIdx? (fun x => x.id = o.id)).isSome = true →
          canUndo (updateObject s o) = true ∧ canRedo (updateObject s o) = false)
      ∧ (∀ (pre : List CanvasObject) (last : CanvasObject),
          canUndo (runOps initialApp (pre.map Op.add ++ [Op.add last])) = true
          ∧ canRedo (runOps initialApp (pre.map Op.add ++ [Op.add last])) = false) := by
  intro s hs o
  obtain ⟨hpos, hstep⟩ := reachable_invariant s hs
  refine ⟨⟨addObject_canUndo s hpos o, addObject_canRedo s o⟩, ?_, ?_⟩
  · intro hfound
    cases hf : (currentObjects s).findIdx? (fun x => x.id = o.id) with
    | none => rw [hf] at hfound; simp at hfound
    | some i =>
      constructor
      · simp [canUndo, updateObject, hf]
        omega
      · simp [canRedo, updateObject, hf]
  · intro pre last
    rw [runOps_append]
    have hreach : Reachable (runOps initialApp (pre.map Op.add)) :=
      ⟨pre.map Op.add, rfl⟩
    obtain ⟨hpos2, _⟩ := reachable_invariant _ hreach
    exact ⟨addObject_canUndo _ hpos2 last, addObject_canRedo _ last⟩

/-- Witness for C2 at the initial state. -/
theorem commit_sets_canUndo_not_canRedo_witness :
    canUndo (addObject initialApp objA) = true
    ∧ canRedo (addObject initialApp objA) = false :=
  (commit_sets_canUndo_not_canRedo initialApp ⟨[], rfl⟩ objA).1

/-- C3 counterexample: at the reachable state reached by one commit
followed by one undo (cursor 0, one redo available), `undo` is a
no-op while `redo` advances, so `undo; redo` changes the visible
object set. -/
theorem undo_redo_changes_current_at_lower_bound :
    currentObjects (handleRedo (handleUndo (runOps initialApp [.add objA, .undo])))
      ≠ currentObjects (runOps initialApp [.add objA, .undo]) := by
  decide

/-- C3 (amended): for every history state whose cursor is in bounds,
if `canUndo` is true or `canRedo` is false then `undo` immediately
followed by `redo` leaves the visible object set unchanged. -/
theorem undo_redo_restores_current :
    ∀ s : AppState, s.currentStep < s.history.length →
      (canUndo s = true ∨ canRedo s = false) →
      currentObjects (handleRedo (handleUndo s)) = currentObjects s := by
  intro s hinv hcond
  by_cases hpos : 0 < s.currentStep
  · have hundo : handleUndo s = ⟨s.history, s.currentStep - 1⟩ := by
      simp [handleUndo, hpos]
    rw [hundo]
    have hc : s.currentStep - 1 < s.history.length - 1 := by omega
    have hredo : handleRedo ⟨s.history, s.currentStep - 1⟩
        = ⟨s.history, s.currentStep - 1 + 1⟩ := by
      simp [handleRedo, hc]
    rw [hredo]
    have heq : s.currentStep - 1 + 1 = s.currentStep := by omega
    simp [currentObjects, heq]
  · have hstep0 : s.currentStep = 0 := by omega
    have hcr : canRedo s = false := by
      rcases hcond with h | h
      · exfalso
        rw [canUndo, hstep0] at h
        simp at h
      · exact h
    have hlen : ¬ s.currentStep < s.history.length - 1 := by
      rw [canRedo] at hcr
      simpa using hcr
    have hlen2 : ¬ 1 < s.history.length := by omega
    simp [handleUndo, handleRedo, hstep0, hlen2]

/-- Witness for C3's amended theorem at the state after one commit. -/
theorem undo_redo_restores_current_witness :
    currentObjects (handleRedo (handleUndo (runOps initialApp [.add objA])))
      = currentObjects (runOps initialApp [.add objA]) :=
  undo_redo_restores_current _ (by decide) (Or.inl (by decide))

/-- C4: the pencil gesture down(10,10), move(20,10), move(30,10), up
commits exactly one line with points [10,10,20,10,30,10]; down
followed directly by up commits a single-point line; a gesture with no
pointer-up commits nothing; and mouse-move events never emit host
calls. -/
theorem pencil_gesture_commits_once :
    (runCanvas .pencil toolOptionsEx (initialCanvas, initialApp)
        [.mouseDown "line-1" (some ⟨10, 10⟩) false,
         .mouseMove (some ⟨20, 10⟩), .mouseMove (some ⟨30, 10⟩), .mouseUp]).2
      = ⟨[[], [.line (pencilLine [10, 10, 20, 10, 30, 10])]], 1⟩
    ∧ (runCanvas .pencil toolOptionsEx (initialCanvas, initialApp)
        [.mouseDown "line-1" (some ⟨10, 10⟩) false, .mouseUp]).2
      = ⟨[[], [.line (pencilLine [10, 10])]], 1⟩
    ∧ (runCanvas .pencil toolOptionsEx (initialCanvas, initialApp)
        [.mouseDown "line-1" (some ⟨10, 10⟩) false,
         .mouseMove (some ⟨20, 10⟩), .mouseMove (some ⟨30, 10⟩)]).2
      = initialApp
    ∧ ∀ (tool : Tool) (opts : ToolOptions) (cs : CanvasState) (pos : Option Point),
        (canvasStep tool opts cs (.mouseMove pos)).2 = [] := by
  refine ⟨rfl, rfl, rfl, fun _ _ _ _ => rfl⟩

/-- C8: an update naming an id absent from the current object set is
ignored: `updateObject` returns the state unchanged (no snapshot, no
cursor move, same visible set), and a transform-end whose target id is
not found emits no host call. -/
theorem unknown_id_update_ignored :
    (∀ (s : AppState) (obj : CanvasObject),
      (∀ o ∈ currentObjects s, o.id ≠ obj.id) → updateObject s obj = s)
    ∧ (∀ (objects : List CanvasObject) (node : TransformNode),
      (∀ o ∈ objects, o.id ≠ node.id) → handleTransformEnd objects node = []) := by
  constructor
  · intro s obj h
    have hf : (currentObjects s).findIdx? (fun o => o.id = obj.id) = none := by
      rw [List.findIdx?_eq_none_iff]
      intro x hx
      simpa using h x hx
    simp [updateObject, hf]
  · intro objects node h
    have hf : objects.find? (fun o => o.id = node.id) = none := by
      rw [List.find?_eq_none]
      intro x hx
      simpa using h x hx
    simp [handleTransformEnd, hf]

/-- Witness for C8: updating an object against the empty initial set
is a no-op. -/
theorem unknown_id_update_ignored_witness :
    updateObject initialApp objA = initialApp :=
  unknown_id_update_ignored.1 initialApp objA
    (by intro o ho; simp [currentObjects, initialApp] at ho)

/-- C10 counterexample: after one commit and one undo, an
`updateObject` whose id is not in the (empty) current snapshot leaves
the cursor at 0 while the last index is 1, so `updateObject` does not
always leave the cursor at the last index. -/
theorem failed_update_cursor_not_last_index :
    (runOps initialApp [.add objA, .undo, .upd objA]).currentStep
      ≠ (runOps initialApp [.add objA, .undo, .upd objA]).history.length - 1 := by
  decide

/-- C10 (amended): from every reachable state the history is non-empty
and the cursor is at most the last index (so `current()` is defined);
`addObject` and a successful `updateObject` leave the cursor at the
last index, while a failed `updateObject` leaves the whole state
unchanged. -/
theorem history_cursor_invariant :
    ∀ (s : AppState), Reachable s →
      (0 < s.history.length ∧ s.currentStep ≤ s.history.length - 1)
      ∧ (∀ o : CanvasObject,
          (addObject s o).currentStep = (addObject s o).history.length - 1)
      ∧ (∀ o : CanvasObject,
          ((currentObjects s).findIdx? (fun x => x.id = o.id)).isSome = true →
            (updateObject s o).currentStep = (updateObject s o).history.length - 1)
      ∧ (∀ o : CanvasObject,
          (currentObjects s).findIdx? (fun x => x.id = o.id) = none →
            updateObject s o = s) := by
  intro s hs
  obtain ⟨hpos, hstep⟩ := reachable_invariant s hs
  refine ⟨⟨hpos, by omega⟩, ?_, ?_, ?_⟩
  · intro o
    simp [addObject]
  · intro o hfound
    cases hf : (currentObjects s).findIdx? (fun x => x.id = o.id) with
    | none => rw [hf] at hfound; simp at hfound
    | some i => simp [updateObject, hf]
  · intro o hf
    simp [updateObject, hf]

/-- Witness for C10 at the initial state. -/
theorem history_cursor_invariant_witness :
    0 < initialApp.history.length
    ∧ initialApp.currentStep ≤ initialApp.history.length - 1 :=
  (history_cursor_invariant initialApp ⟨[], rfl⟩).1

/-- C5: every pointer-move while RESIZING sets the font size to
clamp(startFontSize + delta * 0.2, 8, 150), where delta combines the
pointer deltas (dx,dy) from the gesture start as (-dx)+(-dy) for the
top-left corner, dx+(-dy) for top-right, (-dx)+dy for bottom-left, and
dx+dy for bottom-right. -/
theorem resizing_fontsize_is_clamped_linear :
    ∀ (st : EditableState) (inter : InteractionData) (clientX clientY : ℚ),
      st.interactionMode = .RESIZING →
      (inter.direction = some .topLeft →
        (windowMouseMove st inter clientX clientY).fontSize
          = specClamp (inter.startFontSize
              + (-(clientX - inter.startX) + -(clientY - inter.startY)) * (0.2 : ℚ))
              8 150)
      ∧ (inter.direction = some .topRight →
        (windowMouseMove st inter clientX clientY).fontSize
          = specClamp (inter.startFontSize
              + ((clientX - inter.startX) + -(clientY - inter.startY)) * (0.2 : ℚ))
              8 150)
      ∧ (inter.direction = some .bottomLeft →
        (windowMouseMove st inter clientX clientY).fontSize
          = specClamp (inter.startFontSize
              + (-(clientX - inter.startX) + (clientY - inter.startY)) * (0.2 : ℚ))
              8 150)
      ∧ (inter.direction = some .bottomRight →
        (windowMouseMove st inter clientX clientY).fontSize
          = specClamp (inter.startFontSize
              + ((clientX - inter.startX) + (clientY - inter.startY)) * (0.2 : ℚ))
              8 150) := by
  intro st inter clientX clientY hmode
  refine ⟨?_, ?_, ?_, ?_⟩ <;> intro hdir <;>
    simp [windowMouseMove, hmode, hdir, resizeDelta, reducer, specClamp,
      MIN_FONT_SIZE, MAX_FONT_SIZE]

/-- A sample hook state in RESIZING mode. -/
def resizingStateEx : EditableState :=
  { x := 40, y := 50, width := 200, height := 100, text := "Hi",
    fontSize := 24, interactionMode := .RESIZING }

/-- A sample resize gesture from the top-left handle started at
(100,100) with font size 24. -/
def resizingInterEx : InteractionData :=
  { startX := 100, startY := 100, startFontSize := 24,
    startBoxX := 40, startBoxY := 50, direction := some .topLeft }

/-- Witness for C5 at a concrete top-left resize move. -/
theorem resizing_fontsize_is_clamped_linear_witness :
    (windowMouseMove resizingStateEx resizingInterEx 110 105).fontSize
      = specClamp ((24 : ℚ) + (-((110 : ℚ) - 100) + -((105 : ℚ) - 100)) * (0.2 : ℚ))
          8 150 :=
  (resizing_fontsize_is_clamped_linear resizingStateEx resizingInterEx 110 105 rfl).1 rfl

lemma anchorCorrect_x (direction : ResizeDirection) (prevWidth prevHeight : ℚ)
    (st : EditableState) :
    (anchorCorrect direction prevWidth prevHeight st).x
      = if directionIncludesLeft direction then st.x - (st.width - prevWidth)
        else st.x := by
  unfold anchorCorrect
  dsimp only
  split_ifs with h1 h2 h3 h4 h5 <;> simp_all [reducer]

lemma anchorCorrect_y (direction : ResizeDirection) (prevWidth prevHeight : ℚ)
    (st : EditableState) :
    (anchorCorrect direction prevWidth prevHeight st).y
      = if directionIncludesTop direction then st.y - (st.height - prevHeight)
        else st.y := by
  unfold anchorCorrect
  dsimp only
  split_ifs with h1 h2 h3 h4 h5 <;> simp_all [reducer]

lemma anchorCorrect_size (direction : ResizeDirection) (prevWidth prevHeight : ℚ)
    (st : EditableState) :
    (anchorCorrect direction prevWidth prevHeight st).width = st.width
    ∧ (anchorCorrect direction prevWidth prevHeight st).height = st.height := by
  unfold anchorCorrect
  dsimp only
  split_ifs <;> simp [reducer]

/-- C6: during RESIZING, a measured size change (dw,dh) shifts the
position by -dw on x exactly when the active corner is on the left
edge and by -dh on y exactly when it is on the top edge; the
bottom-right handle leaves (x,y) unchanged, and the top-left handle
keeps the bottom-right corner x+width, y+height fixed. -/
theorem resizing_anchor_keeps_handle_fixed :
    ∀ (direction : ResizeDirection) (prevWidth prevHeight : ℚ) (st : EditableState),
      ((anchorCorrect direction prevWidth prevHeight st).x
          = if directionIncludesLeft direction then st.x - (st.width - prevWidth)
            else st.x)
      ∧ ((anchorCorrect direction prevWidth prevHeight st).y
          = if directionIncludesTop direction then st.y - (st.height - prevHeight)
            else st.y)
      ∧ (anchorCorrect direction prevWidth prevHeight st).width = st.width
      ∧ (anchorCorrect direction prevWidth prevHeight st).height = st.height
      ∧ (directionIncludesLeft direction = true
          ↔ (direction = .topLeft ∨ direction = .bottomLeft))
      ∧ (directionIncludesTop direction = true
          ↔ (direction = .topLeft ∨ direction = .topRight))
      ∧ (direction = .bottomRight →
          (anchorCorrect direction prevWidth prevHeight st).x = st.x
          ∧ (anchorCorrect direction prevWidth prevHeight st).y = st.y)
      ∧ (direction = .topLeft →
          (anchorCorrect direction prevWidth prevHeight st).x + st.width
              = st.x + prevWidth
          ∧ (anchorCorrect direction prevWidth prevHeight st).y + st.height
              = st.y + prevHeight) := by
  intro direction prevWidth prevHeight st
  obtain ⟨hw, hh⟩ := anchorCorrect_size direction prevWidth prevHeight st
  refine ⟨anchorCorrect_x direction prevWidth prevHeight st,
    anchorCorrect_y direction prevWidth prevHeight st, hw, hh,
    ?_, ?_, ?_, ?_⟩
  · cases direction <;> simp [directionIncludesLeft]
  · cases direction <;> simp [directionIncludesTop]
  · intro hd
    subst hd
    rw [anchorCorrect_x, anchorCorrect_y]
    simp [directionIncludesLeft, directionIncludesTop]
  · intro hd
    subst hd
    rw [anchorCorrect_x, anchorCorrect_y]
    constructor <;> simp [directionIncludesLeft, directionIncludesTop] <;> ring

/-- Witness for C6: a top-left resize of a box whose measured size
changed from 200 by 100 to the current size keeps the bottom-right
corner fixed. -/
theorem resizing_anchor_keeps_handle_fixed_witness :
    (anchorCorrect .topLeft 200 100 resizingStateEx).x + resizingStateEx.width
        = resizingStateEx.x + 200
    ∧ (anchorCorrect .topLeft 200 100 resizingStateEx).y + resizingStateEx.height
        = resizingStateEx.y + 100 :=
  (resizing_anchor_keeps_handle_fixed .topLeft 200 100 resizingStateEx).2.2.2.2.2.2.2 rfl

/-- C7: while IDLE, an arrow key translates the position by exactly
±1 on the pressed axis (±10 with Shift); Ctrl+ArrowUp/ArrowDown
instead changes the font size by ±1 (±2 with Shift), clamped to
[8,150] (for a font size already in that range), and leaves the
position unchanged. -/
theorem idle_keyboard_nudge :
    ∀ (st : EditableState) (shift : Bool),
      st.interactionMode = .IDLE →
      ((handleKeyDown st .ArrowUp shift false).x = st.x
        ∧ (handleKeyDown st .ArrowUp shift false).y
            = st.y - (if shift then (10 : ℚ) else 1)
        ∧ (handleKeyDown st .ArrowUp shift false).fontSize = st.fontSize)
      ∧ ((handleKeyDown st .ArrowDown shift false).x = st.x
        ∧ (handleKeyDown st .ArrowDown shift false).y
            = st.y + (if shift then (10 : ℚ) else 1)
        ∧ (handleKeyDown st .ArrowDown shift false).fontSize = st.fontSize)
      ∧ ((handleKeyDown st .ArrowLeft shift false).x
            = st.x - (if shift then (10 : ℚ) else 1)
        ∧ (handleKeyDown st .ArrowLeft shift false).y = st.y)
      ∧ ((handleKeyDown st .ArrowRight shift false).x
            = st.x + (if shift then (10 : ℚ) else 1)
        ∧ (handleKeyDown st .ArrowRight shift false).y = st.y)
      ∧ (8 ≤ st.fontSize → st.fontSize ≤ 150 →
          ((handleKeyDown st .ArrowUp shift true).fontSize
              = specClamp (st.fontSize + (if shift then (2 : ℚ) else 1)) 8 150
            ∧ (handleKeyDown st .ArrowUp shift true).x = st.x
            ∧ (handleKeyDown st .ArrowUp shift true).y = st.y))
      ∧ (8 ≤ st.fontSize → st.fontSize ≤ 150 →
          ((handleKeyDown st .ArrowDown shift true).fontSize
              = specClamp (st.fontSize - (if shift then (2 : ℚ) else 1)) 8 150
            ∧ (handleKeyDown st .ArrowDown shift true).x = st.x
            ∧ (handleKeyDown st .ArrowDown shift true).y = st.y)) := by
  intro st shift hmode
  refine ⟨⟨?_, ?_, ?_⟩, ⟨?_, ?_, ?_⟩, ⟨?_, ?_⟩, ⟨?_, ?_⟩, ?_, ?_⟩
  · cases shift <;> simp [handleKeyDown, hmode, reducer]
  · cases shift <;> simp [handleKeyDown, hmode, reducer] <;> ring
  · cases shift <;> simp [handleKeyDown, hmode, reducer]
  · cases shift <;> simp [handleKeyDown, hmode, reducer]
  · cases shift <;> simp [handleKeyDown, hmode, reducer]
  · cases shift <;> simp [handleKeyDown, hmode, reducer]
  · cases shift <;> simp [handleKeyDown, hmode, reducer] <;> ring
  · cases shift <;> simp [handleKeyDown, hmode, reducer]
  · cases shift <;> simp [handleKeyDown, hmode, reducer]
  · cases shift <;> simp [handleKeyDown, hmode, reducer]
  · intro hfs1 hfs2
    refine ⟨?_, ?_, ?_⟩
    · cases shift <;>
        simp [handleKeyDown, hmode, reducer] <;>
        rw [specClamp, MAX_FONT_SIZE] <;>
        rw [max_eq_right (le_min (by norm_num) (by linarith))]
    · cases shift <;> simp [handleKeyDown, hmode, reducer]
    · cases shift <;> simp [handleKeyDown, hmode, reducer]
  · intro hfs1 hfs2
    refine ⟨?_, ?_, ?_⟩
    · cases shift <;>
        simp [handleKeyDown, hmode, reducer] <;>
        rw [specClamp, MIN_FONT_SIZE] <;>
        rw [min_eq_right (by linarith)]
    · cases shift <;> simp [handleKeyDown, hmode, reducer]
    · cases shift <;> simp [handleKeyDown, hmode, reducer]

/-- A sample hook state in IDLE mode. -/
def idleStateEx : EditableState :=
  { x := 40, y := 50, width := 200, height := 100, text := "Hi",
    fontSize := 24, interactionMode := .IDLE }

/-- Witness for C7: Ctrl+ArrowUp at font size 24 while IDLE. -/
theorem idle_keyboard_nudge_witness :
    (handleKeyDown idleStateEx .ArrowUp false true).fontSize
      = specClamp (idleStateEx.fontSize + 1) 8 150
    ∧ (handleKeyDown idleStateEx .ArrowUp false true).x = idleStateEx.x
    ∧ (handleKeyDown idleStateEx .ArrowUp false true).y = idleStateEx.y :=
  (idle_keyboard_nudge idleStateEx false rfl).2.2.2.2.1
    (by norm_num [idleStateEx]) (by norm_num [idleStateEx])

/-- C9 counterexample: double-clicking the committed "Hi" text object,
editing its text to a single space and blurring commits the
whitespace-only text to history through the exit update notification,
so committed Text objects can have whitespace-only text. -/
theorem whitespace_text_reaches_history :
    handleObjectDblClick .cursor [.text hiCommitted] "t1" initialCanvas = csEditAgain
    ∧ appApplyAll appAfterHi (textExitCalls .EDITING stWhitespace csEditAgain appAfterHi)
        = ⟨[[], [.text hiCommitted], [.text wsCommitted]], 2⟩
    ∧ wsCommitted.text = " " ∧ jsTrim wsCommitted.text = "" := by
  refine ⟨by decide, by decide, rfl, by decide⟩

/-- C9 (amended): the finalize handler `handleTextEditEnd` decides
commit-vs-discard on the whitespace-trimmed text — whitespace-only
text is discarded silently exactly like the empty string, and every
call it does emit carries text whose trim is non-empty — but the exit
update notification can still commit whitespace-only text for a
pre-existing object. -/
theorem trim_empty_text_discarded :
    ∀ (objects : List CanvasObject) (cs : CanvasState) (t : TextObject),
      (jsTrim t.text = "" →
        handleTextEditEnd objects cs t = ({ cs with editingText := none }, []))
      ∧ (∀ c ∈ (handleTextEditEnd objects cs t).2,
          ∃ t2 : TextObject,
            (c = .update (.text t2) ∨ c = .add (.text t2)) ∧ jsTrim t2.text ≠ "") := by
  intro objects cs t
  constructor
  · intro h
    simp [handleTextEditEnd, h]
  · intro c hc
    by_cases htrim : jsTrim t.text = ""
    · simp [handleTextEditEnd, htrim] at hc
    · by_cases hany : objects.any (fun o => o.id = t.id) = true
      · simp [handleTextEditEnd, htrim, hany] at hc
        exact ⟨t, Or.inl hc, htrim⟩
      · simp [handleTextEditEnd, htrim, hany] at hc
        exact ⟨t, Or.inr hc, htrim⟩

/-- A whitespace-only text object. -/
def wsTextEx : TextObject := { placedText with text := " " }

/-- Witness for C9's amended theorem: a single-space text is discarded
by the finalize handler. -/
theorem trim_empty_text_discarded_witness :
    handleTextEditEnd [] initialCanvas wsTextEx
      = ({ initialCanvas with editingText := none }, []) :=
  (trim_empty_text_discarded [] initialCanvas wsTextEx).1 (by decide)

/-- C1 counterexample: blurring a freshly placed text box whose text
is still empty does emit an update notification to the host — the exit
effect fires `onUpdate`, which `handleTextUpdate` forwards as an
`onUpdateObject` call — contradicting the claim that no update
notification is emitted. -/
theorem empty_blur_emits_update_notification :
    textExitCalls .EDITING stEmptyDone csPlaced initialApp
      = [AppCall.update (.text emptyMerged)] := by
  decide

/-- C1 (amended): a text interaction created by pointer-down placement
commits, on blur with text "Hi", exactly one Text object with text
"Hi" (one new snapshot); on blur with empty text no object is
committed and history is unchanged — the update notification that is
still emitted names an id absent from the object set and is ignored. -/
theorem placed_text_commit_or_discard :
    handleMouseDown .text toolOptionsEx "t1" (some ⟨40, 50⟩) false initialCanvas
        = csPlaced
    ∧ appApplyAll initialApp (textExitCalls .EDITING stHi csPlaced initialApp)
        = appAfterHi
    ∧ hiCommitted.text = "Hi"
    ∧ appApplyAll initialApp (textExitCalls .EDITING stEmptyDone csPlaced initialApp)
        = initialApp := by
  refine ⟨by decide, by decide, rfl, by decide⟩

end Trazo
